import Mathlib

/-!
Verification development for the arbitrage detection engine.

The definitions below are a shallow embedding of the TypeScript sources:

* `src/src/core.ts` — the analysis core: `getActiveBookmakers`, `getAllMarkets`,
  `getMarketOutcomes`, `findBestOdds`, `calculateArbitrageForMarket`,
  `analyzeMarket`, `buildTopOutcomeOddsMap`, `generateCombinations`,
  `evaluateCombinations`, `analyzeMarketTopK`;
* `src/src/index.ts` — the aggregation entry point `calculateArbitrage`
  (its I/O half, `loadOddsData`, is external and is not modelled: the
  analysis is a pure function of the already-loaded snapshot);
* `src/unnamed/part_003` — an earlier variant of the same core whose
  `calculateArbitrageForMarket` performs no rounding (namespace `Variant`).

JavaScript numbers are embedded as exact rationals (`ℚ`); JavaScript objects
(string-keyed mappings) as association lists in key-insertion order, which is
the iteration order of `Object.entries` / `Object.keys` / `for..in` used by the
source; JavaScript `Set<string>` as an insertion-ordered duplicate-free list.
Console logging (`verbose`) has no effect on results and is dropped.
-/

/-- `Player` from src/types.ts. Only the fields the analysis reads are
modelled; `bookmakerOutcomeId`, `changedAt`, `limit` and `playerName` are
carried through the input untouched and never read by the core. -/
structure Player where
  active : Bool
  price : ℚ
  deriving DecidableEq

/-- `Outcome` from src/types.ts: mapping player-slot id to `Player`. -/
structure Outcome where
  players : List (String × Player)
  deriving DecidableEq

/-- `Market` from src/types.ts: mapping outcome id to `Outcome`
(`bookmakerMarketId` is never read by the core). -/
structure Market where
  outcomes : List (String × Outcome)
  deriving DecidableEq

/-- `Bookmaker` from src/types.ts (`bookmakerFixtureId` and `fixturePath` are
never read by the core). -/
structure Bookmaker where
  bookmakerIsActive : Bool
  markets : List (String × Market)
  deriving DecidableEq

/-- `OddsData` from src/types.ts. The fixture metadata strings (`fixtureId`,
participant names, sport, tournament) are copied verbatim into the result and
never influence the analysis, so only `bookmakerOdds` is modelled. -/
structure OddsData where
  bookmakerOdds : List (String × Bookmaker)
  deriving DecidableEq

/-- Per-outcome best selection record (`{ bookmaker, odds }` in
`findBestOdds`). -/
structure BestOdd where
  bookmaker : String
  odds : ℚ
  deriving DecidableEq

/-- `OddsOption` from src/types.ts: one `(bookmaker, odds)` candidate of a
top-K list. -/
structure OddsOption where
  bookmaker : String
  odds : ℚ
  deriving DecidableEq

/-- One element of `ArbitrageOpportunity.outcomes` (src/types.ts). -/
structure OutcomeResult where
  outcomeId : String
  bookmaker : String
  odds : ℚ
  impliedProbability : ℚ
  deriving DecidableEq

/-- One element of `ArbitrageOpportunity.betDistribution` (src/types.ts). -/
structure BetItem where
  outcomeId : String
  bookmaker : String
  betPercentage : ℚ
  requiredStake : ℚ
  deriving DecidableEq

/-- `ArbitrageOpportunity` from src/types.ts. -/
structure ArbitrageOpportunity where
  market : String
  outcomes : List OutcomeResult
  totalImpliedProbability : ℚ
  arbitragePercentage : ℚ
  betDistribution : List BetItem
  deriving DecidableEq

/-- `AnalyzeOptions` consumed by `analyzeMarketTopK` (src/core.ts); `verbose`
only drives console logging and is dropped. -/
structure AnalyzeOptions where
  topk : ℕ := 3
  maxResults : ℕ := 5
  includeBetDistribution : Bool := false
  deriving DecidableEq

/-- The `analysis` part of `ArbitrageAnalysisResult` (src/types.ts); the
`fixture` block and `timestamp` are pass-through metadata. -/
structure AnalysisSummary where
  analyzedMarkets : ℕ
  totalActiveBookmakers : ℕ
  totalOpportunities : ℕ
  opportunities : List ArbitrageOpportunity
  deriving DecidableEq

/-- Modelled from the spec: `roundTo2` / `roundTo4` are imported by
`src/src/core.ts` from `./utils`, but the arithmetic half of that utils module
is absent from the sources (the present utils file holds only display/export
helpers). The spec fixes the policy: "All probabilities and the total are
rounded to 4 decimal places, percentages and stakes to 2 decimal places".
Rounding to `d` decimals is round-half-up, i.e. JavaScript
`Math.round(x * 10^d) / 10^d`; the inline `parseFloat(x.toFixed(d))` used in
`evaluateCombinations` agrees with this on the nonnegative values arising
there. -/
def roundToDec (d : ℕ) (x : ℚ) : ℚ := (⌊x * 10 ^ d + 1 / 2⌋ : ℚ) / 10 ^ d

/-- `roundTo4` of src/utils.ts (see `roundToDec`). -/
def roundTo4 (x : ℚ) : ℚ := roundToDec 4 x

/-- `roundTo2` of src/utils.ts (see `roundToDec`). -/
def roundTo2 (x : ℚ) : ℚ := roundToDec 2 x

/-- `getActiveBookmakers` (src/core.ts lines 79-83): names of bookmakers with
`bookmakerIsActive = true`, in mapping order. -/
def getActiveBookmakers (oddsData : OddsData) : List String :=
  (oddsData.bookmakerOdds.filter (fun e => e.2.bookmakerIsActive)).map (·.1)

/-- Insertion into a JavaScript `Set<string>`: appends unless present. -/
def insertUnique (l : List String) (s : String) : List String :=
  if s ∈ l then l else l ++ [s]

/-- `getAllMarkets` (src/core.ts lines 88-99): union of market ids over the
given bookmakers, in first-insertion order. The lookup cannot fail for names
produced by `getActiveBookmakers`; the `none` branch is unreachable there. -/
def getAllMarkets (oddsData : OddsData) (activeBookmakers : List String) : List String :=
  activeBookmakers.foldl
    (fun allMarkets bookmakerName =>
      match oddsData.bookmakerOdds.lookup bookmakerName with
      | some bookmaker => bookmaker.markets.foldl (fun acc m => insertUnique acc m.1) allMarkets
      | none => allMarkets)
    []

/-- `getMarketOutcomes` (src/core.ts lines 104-117): union of outcome ids of
`marketId` over bookmakers that carry that market. -/
def getMarketOutcomes (marketId : String) (oddsData : OddsData)
    (activeBookmakers : List String) : List String :=
  activeBookmakers.foldl
    (fun marketOutcomes bookmakerName =>
      match oddsData.bookmakerOdds.lookup bookmakerName with
      | some bookmaker =>
          match bookmaker.markets.lookup marketId with
          | some market => market.outcomes.foldl (fun acc o => insertUnique acc o.1) marketOutcomes
          | none => marketOutcomes
      | none => marketOutcomes)
    []

/-- The chained access `oddsData.bookmakerOdds[b].markets[m].outcomes[o].players["0"]`
guarded by the `market && market.outcomes[outcomeId]` and `player && ...` checks
of src/core.ts. -/
def lookupPlayer (oddsData : OddsData) (bookmakerName marketId outcomeId : String) :
    Option Player :=
  match oddsData.bookmakerOdds.lookup bookmakerName with
  | some bookmaker =>
      match bookmaker.markets.lookup marketId with
      | some market =>
          match market.outcomes.lookup outcomeId with
          | some outcome => outcome.players.lookup "0"
          | none => none
      | none => none
  | none => none

/-- `findBestOdds` (src/core.ts lines 122-155): per outcome, scan the active
bookmakers keeping the strictly greatest active price (initial best 0, initial
bookmaker the empty string); the outcome is recorded only when some bookmaker
was selected (`if (bestBookmaker)`, JavaScript truthiness of a nonempty
string). Note the scan requires `player.active && player.price > bestOdd` and
nothing else: there is no `price > 1` filter here. -/
def findBestOdds (marketId : String) (marketOutcomes : List String) (oddsData : OddsData)
    (activeBookmakers : List String) : List (String × BestOdd) :=
  marketOutcomes.foldl
    (fun bestOdds outcomeId =>
      let best := activeBookmakers.foldl
        (fun (state : String × ℚ) bookmakerName =>
          match lookupPlayer oddsData bookmakerName marketId outcomeId with
          | some player =>
              if player.active = true ∧ state.2 < player.price
              then (bookmakerName, player.price) else state
          | none => state)
        ("", 0)
      if best.1 ≠ "" then bestOdds ++ [(outcomeId, ⟨best.1, best.2⟩)] else bestOdds)
    []

/-- The `impliedProbabilities` list built at the top of
`calculateArbitrageForMarket` (src/core.ts lines 164-169): per entry of
`bestOdds`, the implied probability `roundTo4(1 / odds)`. -/
def coreOutcomeResults (bestOdds : List (String × BestOdd)) : List OutcomeResult :=
  bestOdds.map fun e =>
    { outcomeId := e.1, bookmaker := e.2.bookmaker, odds := e.2.odds,
      impliedProbability := roundTo4 (1 / e.2.odds) }

/-- The `totalImpliedProbability` of src/core.ts lines 171-175: the reduce of
the rounded implied probabilities, itself rounded to 4 decimals. -/
def coreTotalImplied (bestOdds : List (String × BestOdd)) : ℚ :=
  roundTo4 ((coreOutcomeResults bestOdds).foldl (fun sum item => sum + item.impliedProbability) 0)

/-- `calculateArbitrageForMarket` (src/core.ts lines 160-202): reject when the
rounded total implied probability is `≥ 1`, otherwise build the opportunity
with 2-decimal rounded percentage and stake distribution. -/
def calculateArbitrageForMarket (marketId : String) (bestOdds : List (String × BestOdd)) :
    Option ArbitrageOpportunity :=
  let impliedProbabilities := coreOutcomeResults bestOdds
  let totalImpliedProbability := coreTotalImplied bestOdds
  if totalImpliedProbability ≥ 1 then none
  else
    let arbitragePercentage :=
      roundTo2 (((1 - totalImpliedProbability) / totalImpliedProbability) * 100)
    let betDistribution := impliedProbabilities.map fun item =>
      let betPercentage := roundTo2 ((item.impliedProbability / totalImpliedProbability) * 100)
      ({ outcomeId := item.outcomeId, bookmaker := item.bookmaker,
         betPercentage := betPercentage, requiredStake := betPercentage } : BetItem)
    some { market := marketId, outcomes := impliedProbabilities,
           totalImpliedProbability := totalImpliedProbability,
           arbitragePercentage := arbitragePercentage,
           betDistribution := betDistribution }

/-- `analyzeMarket` (src/core.ts lines 207-265): skip markets with fewer than
2 outcomes, skip markets lacking a best selection for some outcome, otherwise
run the single-best evaluator. -/
def analyzeMarket (marketId : String) (oddsData : OddsData)
    (activeBookmakers : List String) : Option ArbitrageOpportunity :=
  let marketOutcomes := getMarketOutcomes marketId oddsData activeBookmakers
  if marketOutcomes.length < 2 then none
  else
    let bestOdds := findBestOdds marketId marketOutcomes oddsData activeBookmakers
    if bestOdds.length ≠ marketOutcomes.length then none
    else calculateArbitrageForMarket marketId bestOdds

/-- Stable insertion of an `OddsOption` into a list sorted descending by
`odds`; equal keys keep first-come order, matching the stable JavaScript
`sort((a, b) => b.odds - a.odds)`. -/
def insertDescByOdds (x : OddsOption) : List OddsOption → List OddsOption
  | [] => [x]
  | y :: ys => if y.odds ≤ x.odds then x :: y :: ys else y :: insertDescByOdds x ys

/-- Stable sort descending by `odds` (see `insertDescByOdds`). -/
def sortDescByOdds : List OddsOption → List OddsOption
  | [] => []
  | x :: xs => insertDescByOdds x (sortDescByOdds xs)

/-- `buildTopOutcomeOddsMap` (src/core.ts lines 271-299): per outcome of the
market, collect `(bookmaker, price)` over active bookmakers where
`player.active && player.price > 1`, sort descending by odds and keep the
first `topK`. -/
def buildTopOutcomeOddsMap (marketId : String) (oddsData : OddsData)
    (activeBookmakers : List String) (topK : ℕ := 3) : List (String × List OddsOption) :=
  let marketOutcomes := getMarketOutcomes marketId oddsData activeBookmakers
  marketOutcomes.map fun outcomeId =>
    let allOdds := activeBookmakers.filterMap fun bookmakerName =>
      match lookupPlayer oddsData bookmakerName marketId outcomeId with
      | some player =>
          if player.active = true ∧ 1 < player.price
          then some ({ bookmaker := bookmakerName, odds := player.price } : OddsOption)
          else none
      | none => none
    (outcomeId, (sortDescByOdds allOdds).take topK)

/-- The product of the candidate-list lengths computed at the top of
`generateCombinations` (src/core.ts line 308). -/
def totalCombinations (arrays : List (List α)) : ℕ :=
  arrays.foldl (fun acc curr => acc * curr.length) 1

/-- `generateCombinations` (src/core.ts lines 304-319): abort with `[]` when
the product of list lengths strictly exceeds `maxCombinations`, otherwise the
full Cartesian product via the reduce/flatMap fold, starting from the single
empty assignment. -/
def generateCombinations (arrays : List (List α)) (maxCombinations : ℕ := 10000) :
    List (List α) :=
  if totalCombinations arrays > maxCombinations then []
  else arrays.foldl (fun acc curr => acc.flatMap fun a => curr.map fun b => a ++ [b]) [[]]

/-- The `impliedSum` of one combination (src/core.ts line 333): reduce of
`1 / odds` over the chosen options. -/
def impliedSum (combo : List OddsOption) : ℚ :=
  combo.foldl (fun sum option => sum + 1 / option.odds) 0

/-- The body of the `for (const combo of combos)` loop of
`evaluateCombinations` (src/core.ts lines 332-362): emit an opportunity
exactly when the exact implied sum is `< 1`. `outcomeIds[i]` is total in
JavaScript (`undefined` past the end); it is modelled by `getD i ""` — in
every call from `analyzeMarketTopK` the index is in range. -/
def evaluateCombo (marketId : String) (outcomeIds : List String)
    (includeBetDistribution : Bool) (combo : List OddsOption) : Option ArbitrageOpportunity :=
  let s := impliedSum combo
  if s < 1 then
    let arbitragePercentage := ((1 - s) / s) * 100
    let outcomes := combo.enum.map fun p =>
      ({ outcomeId := outcomeIds.getD p.1 "", bookmaker := p.2.bookmaker, odds := p.2.odds,
         impliedProbability := roundTo4 (1 / p.2.odds) } : OutcomeResult)
    let betDistribution :=
      if includeBetDistribution then
        outcomes.map fun item =>
          ({ outcomeId := item.outcomeId, bookmaker := item.bookmaker,
             betPercentage := roundTo2 ((item.impliedProbability / s) * 100),
             requiredStake := roundTo2 ((item.impliedProbability / s) * 100) } : BetItem)
      else []
    some { market := marketId, outcomes := outcomes,
           totalImpliedProbability := roundTo4 s,
           arbitragePercentage := roundTo2 arbitragePercentage,
           betDistribution := betDistribution }
  else none

/-- `evaluateCombinations` (src/core.ts lines 324-366). -/
def evaluateCombinations (marketId : String) (outcomeIds : List String)
    (combos : List (List OddsOption)) (includeBetDistribution : Bool := false) :
    List ArbitrageOpportunity :=
  combos.filterMap (evaluateCombo marketId outcomeIds includeBetDistribution)

/-- Stable insertion of an opportunity into a list sorted descending by
`arbitragePercentage`, matching the stable JavaScript
`sort((a, b) => b.arbitragePercentage - a.arbitragePercentage)`. -/
def insertDescByArb (x : ArbitrageOpportunity) :
    List ArbitrageOpportunity → List ArbitrageOpportunity
  | [] => [x]
  | y :: ys =>
      if y.arbitragePercentage ≤ x.arbitragePercentage then x :: y :: ys
      else y :: insertDescByArb x ys

/-- Stable sort descending by `arbitragePercentage` (see `insertDescByArb`). -/
def sortDescByArb : List ArbitrageOpportunity → List ArbitrageOpportunity
  | [] => []
  | x :: xs => insertDescByArb x (sortDescByArb xs)

/-- The clamping of `topk` in `analyzeMarketTopK` (src/core.ts line 381):
`Math.min(Math.max(topk || 3, 1), 3)` — note `topk || 3` replaces 0 (falsy)
by the default 3 before clamping. -/
def clampTopk (topk : ℕ) : ℕ := min (max (if topk = 0 then 3 else topk) 1) 3

/-- The clamping of `maxResults` in `analyzeMarketTopK` (src/core.ts line
382): `Math.min(Math.max(maxResults || 5, 1), 5)` — `maxResults || 5`
replaces 0 (falsy) by the default 5 before clamping. -/
def clampMaxResults (maxResults : ℕ) : ℕ :=
  min (max (if maxResults = 0 then 5 else maxResults) 1) 5

/-- `analyzeMarketTopK` (src/core.ts lines 368-408): build the top-K odds map,
enumerate the (capped) combinations, evaluate all of them, sort descending by
arbitrage percentage and keep the first `maxResults`. There is no
minimum-outcome-count guard on this path. -/
def analyzeMarketTopK (marketId : String) (oddsData : OddsData)
    (activeBookmakers : List String) (options : AnalyzeOptions := {}) :
    List ArbitrageOpportunity :=
  let topk := clampTopk options.topk
  let maxResults := clampMaxResults options.maxResults
  let outcomeOdds := buildTopOutcomeOddsMap marketId oddsData activeBookmakers topk
  let outcomeIds := outcomeOdds.map (·.1)
  let oddsArrays := outcomeOdds.map (·.2)
  let allCombinations := generateCombinations oddsArrays
  let opportunities :=
    evaluateCombinations marketId outcomeIds allCombinations options.includeBetDistribution
  (sortDescByArb opportunities).take maxResults

/-- `calculateArbitrage` (src/index.ts lines 6-67), single-best path, as a
pure function of the loaded snapshot. The guard at lines 17-19 throws when the
`bookmakerOdds` mapping is empty; the outer catch rewraps the message. The
top-K dispatch of the src/unnamed/part_002 variant differs only after this
guard and for nonempty data. -/
def calculateArbitrage (oddsData : OddsData) : Except String AnalysisSummary :=
  if oddsData.bookmakerOdds.length = 0 then
    .error ("Arbitrage calculation failed: " ++
      "No bookmaker odds data available. The fixture may have finished or not started yet.")
  else
    let activeBookmakers := getActiveBookmakers oddsData
    let allMarkets := getAllMarkets oddsData activeBookmakers
    let arbitrageOpportunities :=
      allMarkets.filterMap fun marketId => analyzeMarket marketId oddsData activeBookmakers
    .ok { analyzedMarkets := allMarkets.length,
          totalActiveBookmakers := activeBookmakers.length,
          totalOpportunities := arbitrageOpportunities.length,
          opportunities := arbitrageOpportunities }

namespace Variant

/-- The `impliedProbabilities` list of the part_003
`calculateArbitrageForMarket` (lines 163-168): implied probabilities are the
exact `1 / odds`, with no rounding. -/
def outcomeResults (bestOdds : List (String × BestOdd)) : List OutcomeResult :=
  bestOdds.map fun e =>
    { outcomeId := e.1, bookmaker := e.2.bookmaker, odds := e.2.odds,
      impliedProbability := 1 / e.2.odds }

/-- The unrounded `totalImpliedProbability` of part_003 (lines 170-173). -/
def totalImplied (bestOdds : List (String × BestOdd)) : ℚ :=
  (outcomeResults bestOdds).foldl (fun sum item => sum + item.impliedProbability) 0

/-- `calculateArbitrageForMarket` from src/unnamed/part_003 (lines 159-200):
identical to the src/core.ts evaluator except that no value is ever rounded.
-/
def calculateArbitrageForMarket (marketId : String) (bestOdds : List (String × BestOdd)) :
    Option ArbitrageOpportunity :=
  let impliedProbabilities := outcomeResults bestOdds
  let totalImpliedProbability := totalImplied bestOdds
  if totalImpliedProbability ≥ 1 then none
  else
    let arbitragePercentage := ((1 - totalImpliedProbability) / totalImpliedProbability) * 100
    let betDistribution := impliedProbabilities.map fun item =>
      let betPercentage := (item.impliedProbability / totalImpliedProbability) * 100
      ({ outcomeId := item.outcomeId, bookmaker := item.bookmaker,
         betPercentage := betPercentage, requiredStake := betPercentage } : BetItem)
    some { market := marketId, outcomes := impliedProbabilities,
           totalImpliedProbability := totalImpliedProbability,
           arbitragePercentage := arbitragePercentage,
           betDistribution := betDistribution }

end Variant

/-- Test fixture: one active bookmaker quoting a single-outcome market "101"
at odds 2 (the shape of the "less than 2 outcomes" unit test in
src/tests/core.test.ts, with a price that makes `1/price < 1`). -/
def singleOutcomeData : OddsData :=
  ⟨[("bookmaker1",
     { bookmakerIsActive := true,
       markets :=
         [("101", { outcomes := [("101", { players := [("0", ⟨true, 2⟩)] })] })] })]⟩

/-- Test fixture: one active bookmaker whose only quote is active with price
1/2 (a price ≤ 1). -/
def lowPriceData : OddsData :=
  ⟨[("bk",
     { bookmakerIsActive := true,
       markets :=
         [("m", { outcomes := [("o1", { players := [("0", ⟨true, 1/2⟩)] })] })] })]⟩

/-- Test fixture: two active bookmakers quoting a two-outcome market "101" at
odds (3, 3) and (4, 4); every one of the four top-K combinations is an
arbitrage, so more than one opportunity is available. -/
def twoBookmakerData : OddsData :=
  ⟨[("b1",
     { bookmakerIsActive := true,
       markets :=
         [("101", { outcomes :=
           [("101", { players := [("0", ⟨true, 3⟩)] }),
            ("102", { players := [("0", ⟨true, 3⟩)] })] })] }),
    ("b2",
     { bookmakerIsActive := true,
       markets :=
         [("101", { outcomes :=
           [("101", { players := [("0", ⟨true, 4⟩)] }),
            ("102", { players := [("0", ⟨true, 4⟩)] })] })] })]⟩

/-- Test fixture: a single bookmaker with `bookmakerIsActive = false` (the
"No Active Bookmakers" edge case of the bundled test script). -/
def inactiveOnlyData : OddsData :=
  ⟨[("inactive", { bookmakerIsActive := false, markets := [] })]⟩

/-- Test fixture: one active bookmaker carrying no market at all. -/
def noMarketsData : OddsData :=
  ⟨[("bk", { bookmakerIsActive := true, markets := [] })]⟩

/-- The opportunity emitted by both evaluators for best odds (2, 5/2) at
bookmakers b1, b2: implied probabilities 1/2 and 2/5 (unchanged by 4-decimal
rounding), total 9/10, profit `roundTo2(100/9) = 11.11`, stakes
`roundTo2(500/9) = 55.56` and `roundTo2(400/9) = 44.44`. -/
def oppTwoFive : ArbitrageOpportunity :=
  { market := "m",
    outcomes :=
      [{ outcomeId := "o1", bookmaker := "b1", odds := 2, impliedProbability := 1/2 },
       { outcomeId := "o2", bookmaker := "b2", odds := 5/2, impliedProbability := 2/5 }],
    totalImpliedProbability := 9/10,
    arbitragePercentage := 1111/100,
    betDistribution :=
      [{ outcomeId := "o1", bookmaker := "b1", betPercentage := 1389/25, requiredStake := 1389/25 },
       { outcomeId := "o2", bookmaker := "b2", betPercentage := 1111/25, requiredStake := 1111/25 }] }

/-!
Helper lemmas shared by the claim theorems.
-/

theorem foldl_add_eq_sum_map {α : Type _} (f : α → ℚ) (l : List α) (c : ℚ) :
    l.foldl (fun sum a => sum + f a) c = c + (l.map f).sum := by
  induction l generalizing c with
  | nil => simp
  | cons x xs ih => simp [List.foldl_cons, ih, add_assoc]

theorem abs_roundToDec_sub_le (d : ℕ) (x : ℚ) :
    |roundToDec d x - x| ≤ 1 / (2 * 10 ^ d) := by
  have hp : (0:ℚ) < 10 ^ d := by positivity
  have h1 : (⌊x * 10 ^ d + 1 / 2⌋ : ℚ) ≤ x * 10 ^ d + 1 / 2 := Int.floor_le _
  have h2 : x * 10 ^ d + 1 / 2 - 1 < (⌊x * 10 ^ d + 1 / 2⌋ : ℚ) := Int.sub_one_lt_floor _
  have key : roundToDec d x - x = ((⌊x * 10 ^ d + 1 / 2⌋ : ℚ) - x * 10 ^ d) / 10 ^ d := by
    rw [roundToDec]; field_simp; ring
  have hnum : |(⌊x * 10 ^ d + 1 / 2⌋ : ℚ) - x * 10 ^ d| ≤ 1 / 2 := by
    rw [abs_le]; constructor <;> linarith
  calc |roundToDec d x - x|
      = |(⌊x * 10 ^ d + 1 / 2⌋ : ℚ) - x * 10 ^ d| / 10 ^ d := by
        rw [key, abs_div, abs_of_pos hp]
    _ ≤ (1 / 2) / 10 ^ d := (div_le_div_iff_of_pos_right hp).mpr hnum
    _ = 1 / (2 * 10 ^ d) := by ring

theorem sum_map_roundToDec_close (d : ℕ) (l : List ℚ) :
    |(l.map (roundToDec d)).sum - l.sum| ≤ (l.length : ℚ) * (1 / (2 * 10 ^ d)) := by
  induction l with
  | nil => simp
  | cons x xs ih =>
      have hx := abs_roundToDec_sub_le d x
      have step : |(roundToDec d x - x) + ((xs.map (roundToDec d)).sum - xs.sum)| ≤
          1 / (2 * 10 ^ d) + (xs.length : ℚ) * (1 / (2 * 10 ^ d)) :=
        le_trans (abs_add _ _) (add_le_add hx ih)
      simp only [List.map_cons, List.sum_cons, List.length_cons]
      push_cast
      calc |(roundToDec d x + (xs.map (roundToDec d)).sum) - (x + xs.sum)|
          = |(roundToDec d x - x) + ((xs.map (roundToDec d)).sum - xs.sum)| := by ring_nf
        _ ≤ 1 / (2 * 10 ^ d) + (xs.length : ℚ) * (1 / (2 * 10 ^ d)) := step
        _ = ((xs.length : ℚ) + 1) * (1 / (2 * 10 ^ d)) := by ring

theorem totalCombinations_foldl {α : Type _} (rest : List (List α)) (init : ℕ) :
    rest.foldl (fun acc curr => acc * curr.length) init = init * totalCombinations rest := by
  induction rest generalizing init with
  | nil => simp [totalCombinations]
  | cons c cs ih =>
      rw [totalCombinations, List.foldl_cons, List.foldl_cons, ih, ih (1 * c.length)]
      ring

theorem length_cross_step {α : Type _} (acc : List (List α)) (curr : List α) :
    (acc.flatMap fun a => curr.map fun b => a ++ [b]).length = acc.length * curr.length := by
  induction acc with
  | nil => simp
  | cons a as ih => simp [List.flatMap_cons, ih, Nat.succ_mul, Nat.add_comm]

theorem length_cross_foldl {α : Type _} (arrays : List (List α)) (acc : List (List α)) :
    (arrays.foldl (fun acc curr => acc.flatMap fun a => curr.map fun b => a ++ [b]) acc).length
      = acc.length * totalCombinations arrays := by
  induction arrays generalizing acc with
  | nil => simp [totalCombinations]
  | cons curr rest ih =>
      rw [totalCombinations, List.foldl_cons, List.foldl_cons, ih, length_cross_step,
        totalCombinations_foldl rest (1 * curr.length)]
      ring

theorem one_le_clampMaxResults (m : ℕ) : 1 ≤ clampMaxResults m := by
  rw [clampMaxResults]
  exact Nat.le_min.mpr ⟨Nat.le_max_right _ 1, by norm_num⟩

/-!
Claim C4 — combination generation and the cap.
-/

/-- C4, counterexample. The claim states that `generateCombinations` returns
zero assignments when the product of the candidate-list sizes is *at or
above* `combinationCap`. At a product exactly equal to the cap (here 2 = 2)
the code enumerates the full cross product instead of aborting: the guard is
`totalCombinations > maxCombinations`, strict. -/
theorem C4_counterexample :
    totalCombinations [[(0:ℕ), 1]] = 2 ∧ generateCombinations [[(0:ℕ), 1]] 2 = [[0], [1]] := by
  decide

/-- C4, amended. For every list of per-outcome candidate lists,
`generateCombinations` returns exactly the full cross product — of size equal
to the product of the list sizes — when that product is at most (not strictly
below) `maxCombinations`, and returns zero assignments (no partial result)
exactly when the product strictly exceeds `maxCombinations`. -/
theorem C4_amended {α : Type _} (arrays : List (List α)) (cap : ℕ) :
    (totalCombinations arrays ≤ cap →
      (generateCombinations arrays cap).length = totalCombinations arrays) ∧
    (cap < totalCombinations arrays → generateCombinations arrays cap = []) := by
  constructor
  · intro h
    rw [generateCombinations, if_neg (by omega)]
    rw [length_cross_foldl]
    simp
  · intro h
    rw [generateCombinations, if_pos (by omega)]

/-- C4, witness for the amended claim at concrete inputs: a 2×3 family below
the default cap yields all 6 assignments, and a 2-element family with cap 1
aborts to the empty set. -/
theorem C4_amended_witness :
    (generateCombinations [[(0:ℕ), 1], [2, 3, 4]] 10000).length =
      totalCombinations [[(0:ℕ), 1], [2, 3, 4]] ∧
    generateCombinations [[(0:ℕ), 1]] 1 = [] :=
  ⟨(C4_amended [[0, 1], [2, 3, 4]] 10000).1 (by decide),
   (C4_amended [[0, 1]] 1).2 (by decide)⟩

/-!
Claim C7 — parameter clamping in `analyzeMarketTopK`.
-/

/-- C7, counterexample. The claim states that `maxResults = 0` behaves
exactly as `maxResults = 1`. In the code `maxResults || 5` replaces the falsy
0 by the default 5 *before* clamping, so `maxResults = 0` keeps up to five
results: on a market with four arbitrage combinations it returns all 4, while
`maxResults = 1` returns 1. -/
theorem C7_counterexample :
    (analyzeMarketTopK "101" twoBookmakerData ["b1", "b2"] { maxResults := 0 }).length = 4 ∧
    (analyzeMarketTopK "101" twoBookmakerData ["b1", "b2"] { maxResults := 1 }).length = 1 := by
  have h1 : buildTopOutcomeOddsMap "101" twoBookmakerData ["b1", "b2"] 3 =
      [("101", [⟨"b2", 4⟩, ⟨"b1", 3⟩]), ("102", [⟨"b2", 4⟩, ⟨"b1", 3⟩])] := by decide
  have hk : clampTopk 3 = 3 := by decide
  have hm0 : clampMaxResults 0 = 5 := by decide
  have hm1 : clampMaxResults 1 = 1 := by decide
  constructor <;>
  · simp only [analyzeMarketTopK, hk, hm0, hm1, h1]
    norm_num [generateCombinations, totalCombinations, evaluateCombinations, evaluateCombo,
      impliedSum, roundTo4, roundTo2, roundToDec, sortDescByArb, insertDescByArb,
      List.enum, List.enumFrom, List.filterMap_cons, List.filterMap_nil]

/-- C7, amended. `analyzeMarketTopK` clamps `topk` to `[1, 3]` (with 0
defaulting to 3), so `topk = 10` behaves exactly as `topk = 3`; `maxResults`
is clamped to `[1, 5]` but 0 is first replaced by the default, so
`maxResults = 0` behaves exactly as `maxResults = 5` (not 1). -/
theorem C7_amended (marketId : String) (oddsData : OddsData) (activeBookmakers : List String)
    (opts : AnalyzeOptions) :
    analyzeMarketTopK marketId oddsData activeBookmakers {opts with topk := 10} =
      analyzeMarketTopK marketId oddsData activeBookmakers {opts with topk := 3} ∧
    analyzeMarketTopK marketId oddsData activeBookmakers {opts with maxResults := 0} =
      analyzeMarketTopK marketId oddsData activeBookmakers {opts with maxResults := 5} :=
  ⟨rfl, rfl⟩

/-!
Claim C8 — empty input handling in `calculateArbitrage`.
-/

/-- C8, counterexample. The claim states the analysis completes successfully
even when the bookmaker mapping is entirely empty; the code instead throws
("No bookmaker odds data available") on an empty `bookmakerOdds` mapping. -/
theorem C8_counterexample :
    calculateArbitrage ⟨[]⟩ =
      Except.error ("Arbitrage calculation failed: " ++
        "No bookmaker odds data available. The fixture may have finished or not started yet.") :=
  rfl

/-- C8, amended. For a *nonempty* bookmaker mapping the analysis never fails:
with no active bookmaker it returns the zero summary (zero markets, zero
active bookmakers, zero opportunities), and with active bookmakers but no
markets it returns zero markets and zero opportunities (the active-bookmaker
count being whatever it is); an entirely empty mapping is instead rejected
with an error. -/
theorem C8_amended (oddsData : OddsData) :
    (oddsData.bookmakerOdds ≠ [] → getActiveBookmakers oddsData = [] →
      calculateArbitrage oddsData = .ok ⟨0, 0, 0, []⟩) ∧
    (oddsData.bookmakerOdds ≠ [] →
      getAllMarkets oddsData (getActiveBookmakers oddsData) = [] →
      calculateArbitrage oddsData =
        .ok ⟨0, (getActiveBookmakers oddsData).length, 0, []⟩) := by
  constructor
  · intro h1 h2
    rw [calculateArbitrage, if_neg (by simp [List.length_eq_zero, h1])]
    simp only [h2]
    rfl
  · intro h1 h2
    rw [calculateArbitrage, if_neg (by simp [List.length_eq_zero, h1])]
    simp only [h2]
    rfl

/-- C8, witness for the amended claim: a snapshot holding one inactive
bookmaker yields the all-zero summary, and a snapshot holding one active
bookmaker with no markets yields zero markets and opportunities with one
active bookmaker. -/
theorem C8_amended_witness :
    calculateArbitrage inactiveOnlyData = .ok ⟨0, 0, 0, []⟩ ∧
    calculateArbitrage noMarketsData = .ok ⟨0, 1, 0, []⟩ :=
  ⟨(C8_amended inactiveOnlyData).1 (by decide) (by decide),
   (C8_amended noMarketsData).2 (by decide) (by decide)⟩

/-!
Claim C2 — single-outcome markets.
-/

/-- C2: evidence for the code bug. The claim (and the spec invariant "markets
with fewer than 2 resolvable outcomes never contribute") says a one-outcome
market never produces an opportunity in either mode. On the failing input — a
market whose only outcome is quoted at odds 2 — the single-best path indeed
skips the market, but `analyzeMarketTopK` has no outcome-count guard and
emits an opportunity with totalImpliedProbability 1/2 over that single
outcome. -/
theorem C2_bug :
    analyzeMarket "101" singleOutcomeData ["bookmaker1"] = none ∧
    (analyzeMarketTopK "101" singleOutcomeData ["bookmaker1"]).map
      (fun o => (o.totalImpliedProbability, o.outcomes.length)) = [((1:ℚ)/2, 1)] := by
  refine ⟨by decide, ?_⟩
  norm_num [analyzeMarketTopK, buildTopOutcomeOddsMap, getMarketOutcomes, lookupPlayer,
    List.lookup, insertUnique, sortDescByOdds, insertDescByOdds, generateCombinations,
    totalCombinations, evaluateCombinations, evaluateCombo, impliedSum, roundTo4, roundTo2,
    roundToDec, clampTopk, clampMaxResults, sortDescByArb, insertDescByArb, singleOutcomeData,
    List.enum, List.enumFrom, List.filterMap_cons, List.filterMap_nil]

/-!
Claim C10 — empty candidate-list family and markets with no outcomes.
-/

/-- C10. `generateCombinations` applied to an empty family (at the default
cap) yields exactly the one empty assignment, and consequently for any market
whose outcome set is empty, `analyzeMarketTopK` emits exactly one opportunity
whose outcome sequence is empty and whose recorded totalImpliedProbability is
0. -/
theorem C10_thm :
    generateCombinations ([] : List (List OddsOption)) = [[]] ∧
    ∀ (marketId : String) (oddsData : OddsData) (activeBookmakers : List String)
      (options : AnalyzeOptions),
      getMarketOutcomes marketId oddsData activeBookmakers = [] →
      (analyzeMarketTopK marketId oddsData activeBookmakers options).map
        (fun o => (o.outcomes, o.totalImpliedProbability)) = [([], 0)] := by
  constructor
  · rfl
  · intro marketId oddsData activeBookmakers options h
    obtain ⟨k, hk⟩ := Nat.exists_eq_add_of_le (one_le_clampMaxResults options.maxResults)
    rw [Nat.add_comm] at hk
    simp only [analyzeMarketTopK, buildTopOutcomeOddsMap, h, List.map_nil]
    norm_num [generateCombinations, totalCombinations, evaluateCombinations, evaluateCombo,
      impliedSum, roundTo4, roundTo2, roundToDec, sortDescByArb, insertDescByArb, hk,
      ite_self, List.filterMap_cons, List.filterMap_nil, List.enum, List.take_succ_cons]

/-- C10, witness: a market id carried by no bookmaker has an empty outcome
set, and the top-K analysis of it emits the single degenerate opportunity. -/
theorem C10_thm_witness :
    generateCombinations ([] : List (List OddsOption)) = [[]] ∧
    (analyzeMarketTopK "999" singleOutcomeData ["bookmaker1"] {}).map
      (fun o => (o.outcomes, o.totalImpliedProbability)) = [([], 0)] :=
  ⟨C10_thm.1, C10_thm.2 "999" singleOutcomeData ["bookmaker1"] {} (by decide)⟩

/-!
Characterizations of the two single-best evaluators, shared by several
claims.
-/

theorem calculateArbitrageForMarket_isSome_iff (marketId : String)
    (bestOdds : List (String × BestOdd)) :
    (calculateArbitrageForMarket marketId bestOdds).isSome ↔
      coreTotalImplied bestOdds < 1 := by
  rcases lt_or_le (coreTotalImplied bestOdds) 1 with h | h
  · simp [calculateArbitrageForMarket, not_le.mpr h, h]
  · simp [calculateArbitrageForMarket, ge_iff_le, h, not_lt.mpr h]

theorem calculateArbitrageForMarket_total_lt (marketId : String)
    (bestOdds : List (String × BestOdd)) :
    (calculateArbitrageForMarket marketId bestOdds).elim True
      (fun opp => opp.totalImpliedProbability < 1) := by
  rcases lt_or_le (coreTotalImplied bestOdds) 1 with h | h
  · simp [calculateArbitrageForMarket, not_le.mpr h, h]
  · simp [calculateArbitrageForMarket, ge_iff_le, h]

theorem calculateArbitrageForMarket_arb_eq (marketId : String)
    (bestOdds : List (String × BestOdd)) :
    (calculateArbitrageForMarket marketId bestOdds).elim True
      (fun opp => opp.arbitragePercentage =
        roundTo2 (((1 - opp.totalImpliedProbability) / opp.totalImpliedProbability) * 100)) := by
  rcases lt_or_le (coreTotalImplied bestOdds) 1 with h | h
  · simp [calculateArbitrageForMarket, not_le.mpr h, h]
  · simp [calculateArbitrageForMarket, ge_iff_le, h]

theorem variant_isSome_iff (marketId : String) (bestOdds : List (String × BestOdd)) :
    (Variant.calculateArbitrageForMarket marketId bestOdds).isSome ↔
      Variant.totalImplied bestOdds < 1 := by
  rcases lt_or_le (Variant.totalImplied bestOdds) 1 with h | h
  · simp [Variant.calculateArbitrageForMarket, not_le.mpr h, h]
  · simp [Variant.calculateArbitrageForMarket, ge_iff_le, h, not_lt.mpr h]

theorem variant_arb_eq (marketId : String) (bestOdds : List (String × BestOdd)) :
    (Variant.calculateArbitrageForMarket marketId bestOdds).elim True
      (fun opp => opp.arbitragePercentage =
        ((1 - opp.totalImpliedProbability) / opp.totalImpliedProbability) * 100) := by
  rcases lt_or_le (Variant.totalImplied bestOdds) 1 with h | h
  · simp [Variant.calculateArbitrageForMarket, not_le.mpr h, h]
  · simp [Variant.calculateArbitrageForMarket, ge_iff_le, h]

/-!
Claim C1 — opportunity creation versus the implied-probability threshold.
-/

/-- C1, counterexample. Two quotes at odds 2.0001 have exact implied sum
20000/20001 < 1, so the combination evaluator produces an opportunity — but
the recorded totalImpliedProbability rounds up to exactly 1, refuting "the
totalImpliedProbability field recorded in every produced opportunity is
strictly less than 1". Moreover three best quotes at odds 3 have exact
implied total exactly 1 (no genuine arbitrage), yet the single-best evaluator
produces an opportunity because it compares the rounded total 9999/10000,
refuting the only-if direction of the claimed equivalence with the total of
the chosen prices. -/
theorem C1_counterexample :
    ((evaluateCombinations "m" ["o1", "o2"]
        [[⟨"b1", 20001/10000⟩, ⟨"b2", 20001/10000⟩]]).map
      (·.totalImpliedProbability) = [1]) ∧
    impliedSum [⟨"b1", (20001:ℚ)/10000⟩, ⟨"b2", (20001:ℚ)/10000⟩] < 1 ∧
    (calculateArbitrageForMarket "m"
        [("a", ⟨"bk", 3⟩), ("b", ⟨"bk", 3⟩), ("c", ⟨"bk", 3⟩)]).isSome = true ∧
    impliedSum [⟨"bk", (3:ℚ)⟩, ⟨"bk", 3⟩, ⟨"bk", 3⟩] = 1 := by
  refine ⟨?_, by norm_num [impliedSum], ?_, by norm_num [impliedSum]⟩
  · norm_num [evaluateCombinations, evaluateCombo, impliedSum, roundTo4, roundTo2, roundToDec,
      List.filterMap_cons, List.filterMap_nil, List.enum, List.enumFrom]
  · norm_num [calculateArbitrageForMarket, coreOutcomeResults, coreTotalImplied,
      roundTo4, roundTo2, roundToDec]

/-- C1, amended. The evaluators produce an opportunity iff the total they
actually compare against 1 is strictly below 1 — but that total differs by
mode: the combination evaluator (top-K mode) compares the exact implied sum
of the chosen prices, while the single-best evaluator compares the 4-decimal
rounding of the sum of 4-decimal-rounded implied probabilities, which can
disagree with the exact total in both directions. The recorded
totalImpliedProbability of a single-best opportunity is strictly less than 1,
but in top-K mode the recorded (rounded) field can equal 1. -/
theorem C1_amended (marketId : String) (outcomeIds : List String) (combo : List OddsOption)
    (incl : Bool) (bestOdds : List (String × BestOdd)) :
    (evaluateCombinations marketId outcomeIds [combo] incl ≠ [] ↔ impliedSum combo < 1) ∧
    ((calculateArbitrageForMarket marketId bestOdds).isSome ↔
      coreTotalImplied bestOdds < 1) ∧
    (calculateArbitrageForMarket marketId bestOdds).elim True
      (fun opp => opp.totalImpliedProbability < 1) := by
  refine ⟨?_, calculateArbitrageForMarket_isSome_iff marketId bestOdds,
    calculateArbitrageForMarket_total_lt marketId bestOdds⟩
  by_cases h : impliedSum combo < 1 <;>
    simp [evaluateCombinations, evaluateCombo, h, List.filterMap_cons, List.filterMap_nil]

/-!
Claim C5 — the arbitrage-percentage formula.
-/

/-- C5, counterexample. At best odds (2.2, 2.2) the single-best evaluator
records arbitragePercentage 10.01 — computed from the 4-decimal rounded total
909/1000 — while the claimed formula `(1 - total)/total * 100` applied to the
total implied probability recomputed from the reported outcome odds gives
exactly 10 (already exact at 2 decimals). The recorded value is therefore not
reproducible from the reported odds by the claimed formula. -/
theorem C5_counterexample :
    ((calculateArbitrageForMarket "101" [("101", ⟨"b1", 11/5⟩), ("102", ⟨"b1", 11/5⟩)]).map
      (·.arbitragePercentage) = some (1001/100)) ∧
    roundTo2 (((1 - impliedSum [⟨"b1", (11:ℚ)/5⟩, ⟨"b1", (11:ℚ)/5⟩]) /
        impliedSum [⟨"b1", (11:ℚ)/5⟩, ⟨"b1", (11:ℚ)/5⟩]) * 100) = 10 := by
  constructor
  · norm_num [calculateArbitrageForMarket, coreOutcomeResults, coreTotalImplied,
      roundTo4, roundTo2, roundToDec]
  · norm_num [impliedSum, roundTo2, roundToDec]

/-- C5, amended. In top-K mode every emitted opportunity's
arbitragePercentage is `(1 - S)/S * 100` rounded to 2 decimals where `S` is
the exact implied sum recomputed from the reported outcome odds — so there it
is exactly reproducible from the reported odds. In single-best mode the
formula instead uses the opportunity's recorded (4-decimal rounded)
totalImpliedProbability, which need not agree with the odds-derived total. -/
theorem C5_amended (marketId : String) (outcomeIds : List String)
    (combos : List (List OddsOption)) (incl : Bool) (bestOdds : List (String × BestOdd)) :
    ((evaluateCombinations marketId outcomeIds combos incl).Forall fun opp =>
      opp.arbitragePercentage =
        roundTo2 (((1 - impliedSum (opp.outcomes.map fun r => ⟨r.bookmaker, r.odds⟩)) /
            impliedSum (opp.outcomes.map fun r => ⟨r.bookmaker, r.odds⟩)) * 100)) ∧
    (calculateArbitrageForMarket marketId bestOdds).elim True
      (fun opp => opp.arbitragePercentage =
        roundTo2 (((1 - opp.totalImpliedProbability) / opp.totalImpliedProbability) * 100)) := by
  refine ⟨?_, calculateArbitrageForMarket_arb_eq marketId bestOdds⟩
  rw [List.forall_iff_forall_mem]
  intro opp hm
  rw [evaluateCombinations, List.mem_filterMap] at hm
  obtain ⟨combo, _, he⟩ := hm
  by_cases h : impliedSum combo < 1
  · simp only [evaluateCombo, h, if_true, Option.some.injEq] at he
    subst he
    have houts : (combo.enum.map ((fun r => (⟨r.bookmaker, r.odds⟩ : OddsOption)) ∘ fun p =>
        ({ outcomeId := outcomeIds.getD p.1 "", bookmaker := p.2.bookmaker, odds := p.2.odds,
           impliedProbability := roundTo4 (1 / p.2.odds) } : OutcomeResult))) = combo :=
      List.enum_map_snd combo
    simp only [one_div] at houts ⊢
    simp at houts ⊢
    simp [houts]
  · simp [evaluateCombo, h] at he

/-!
Claim C9 — the two single-best evaluator variants.
-/

/-- C9, counterexample. The two variants do not agree. At best odds
(2.2, 2.2) both emit, but src/core.ts records arbitragePercentage 10.01
(computed from the rounded total 909/1000 and rounded to 2 decimals) while
the part_003 variant records exactly 10. At best odds (2.0001, 2.0001) the
part_003 variant emits (exact total 20000/20001 < 1) while src/core.ts does
not (rounded total exactly 1). -/
theorem C9_counterexample :
    ((calculateArbitrageForMarket "m" [("101", ⟨"b1", 11/5⟩), ("102", ⟨"b2", 11/5⟩)]).map
      (·.arbitragePercentage) = some (1001/100)) ∧
    ((Variant.calculateArbitrageForMarket "m"
        [("101", ⟨"b1", 11/5⟩), ("102", ⟨"b2", 11/5⟩)]).map
      (·.arbitragePercentage) = some 10) ∧
    (calculateArbitrageForMarket "m"
      [("101", ⟨"b1", 20001/10000⟩), ("102", ⟨"b2", 20001/10000⟩)] = none) ∧
    ((Variant.calculateArbitrageForMarket "m"
        [("101", ⟨"b1", 20001/10000⟩), ("102", ⟨"b2", 20001/10000⟩)]).isSome = true) := by
  refine ⟨?_, ?_, ?_, ?_⟩ <;>
    norm_num [calculateArbitrageForMarket, coreOutcomeResults, coreTotalImplied,
      Variant.calculateArbitrageForMarket, Variant.outcomeResults, Variant.totalImplied,
      roundTo4, roundTo2, roundToDec]

/-- C9, amended. The two variants agree only up to rounding: each emits iff
the total it computes is strictly below 1 — src/core.ts the 4-decimal
rounding of the sum of 4-decimal-rounded implied probabilities, part_003 the
exact sum — and each records the percentage formula at its own total,
src/core.ts additionally rounding to 2 decimals. They therefore agree on
existence exactly when the two totals fall on the same side of 1, and their
arbitragePercentages agree only when the rounding is lossless at this input.
-/
theorem C9_amended (marketId : String) (bestOdds : List (String × BestOdd)) :
    ((calculateArbitrageForMarket marketId bestOdds).isSome ↔
      coreTotalImplied bestOdds < 1) ∧
    ((Variant.calculateArbitrageForMarket marketId bestOdds).isSome ↔
      Variant.totalImplied bestOdds < 1) ∧
    ((calculateArbitrageForMarket marketId bestOdds).elim True
      (fun opp => opp.arbitragePercentage =
        roundTo2 (((1 - opp.totalImpliedProbability) / opp.totalImpliedProbability) * 100))) ∧
    ((Variant.calculateArbitrageForMarket marketId bestOdds).elim True
      (fun opp => opp.arbitragePercentage =
        ((1 - opp.totalImpliedProbability) / opp.totalImpliedProbability) * 100)) :=
  ⟨calculateArbitrageForMarket_isSome_iff marketId bestOdds,
   variant_isSome_iff marketId bestOdds,
   calculateArbitrageForMarket_arb_eq marketId bestOdds,
   variant_arb_eq marketId bestOdds⟩

/-!
Membership and invariant helpers for claim C3.
-/

theorem listFoldlInv {β : Type _} {α : Type _} (P : β → Prop) (f : β → α → β)
    (hstep : ∀ b a, P b → P (f b a)) :
    ∀ (l : List α) (init : β), P init → P (l.foldl f init) := by
  intro l
  induction l with
  | nil => intro init h; simpa using h
  | cons x xs ih =>
      intro init h
      rw [List.foldl_cons]
      exact ih _ (hstep _ _ h)

theorem mem_insertDescByOdds {x y : OddsOption} {l : List OddsOption}
    (h : x ∈ insertDescByOdds y l) : x = y ∨ x ∈ l := by
  induction l with
  | nil => simpa [insertDescByOdds] using h
  | cons z zs ih =>
      simp only [insertDescByOdds] at h
      by_cases hc : z.odds ≤ y.odds
      · simp only [if_pos hc, List.mem_cons] at h
        rcases h with h | h | h
        · exact Or.inl h
        · exact Or.inr (by simp [h])
        · exact Or.inr (by simp [h])
      · simp only [if_neg hc, List.mem_cons] at h
        rcases h with h | h
        · right; simp [h]
        · rcases ih h with h' | h'
          · left; exact h'
          · right; simp [h']

theorem mem_sortDescByOdds {x : OddsOption} {l : List OddsOption}
    (h : x ∈ sortDescByOdds l) : x ∈ l := by
  induction l with
  | nil => simp [sortDescByOdds] at h
  | cons y ys ih =>
      simp only [sortDescByOdds] at h
      rcases mem_insertDescByOdds h with h' | h'
      · simp [h']
      · simp [ih h']

/-!
Claim C3 — which quotes participate in selection.
-/

/-- C3, counterexample. `findBestOdds` has no `price > 1` filter: with a
single active quote of price 1/2 for the only outcome, the single-best
selection contains a quote whose price is ≤ 1, contradicting the claim for
the single-best mode. -/
theorem C3_counterexample :
    findBestOdds "m" ["o1"] lowPriceData ["bk"] = [("o1", ⟨"bk", 1/2⟩)] ∧
    ¬ (1 < ((1:ℚ)/2)) := by
  constructor
  · norm_num [findBestOdds, lookupPlayer, List.lookup, lowPriceData]
    decide
  · norm_num

/-- C3, amended. The top-K candidate lists contain only quotes originating
from an `active = true` player with price strictly greater than 1; the
single-best selection contains only quotes originating from an
`active = true` player, with price strictly greater than 0 — but possibly
≤ 1, since `findBestOdds` filters only on activity and improvement over the
running best (initially 0). -/
theorem C3_amended (marketId : String) (oddsData : OddsData) (activeBookmakers : List String)
    (topK : ℕ) (marketOutcomes : List String) :
    ((buildTopOutcomeOddsMap marketId oddsData activeBookmakers topK).Forall fun pair =>
      pair.2.Forall fun opt => 1 < opt.odds ∧
        ∃ player, lookupPlayer oddsData opt.bookmaker marketId pair.1 = some player ∧
          player.active = true ∧ player.price = opt.odds) ∧
    ((findBestOdds marketId marketOutcomes oddsData activeBookmakers).Forall fun entry =>
      0 < entry.2.odds ∧
        ∃ player, lookupPlayer oddsData entry.2.bookmaker marketId entry.1 = some player ∧
          player.active = true ∧ player.price = entry.2.odds) := by
  constructor
  · rw [List.forall_iff_forall_mem]
    intro pair hp
    simp only [buildTopOutcomeOddsMap] at hp
    rw [List.mem_map] at hp
    obtain ⟨oid, -, rfl⟩ := hp
    rw [List.forall_iff_forall_mem]
    intro opt hopt
    have h2 : opt ∈ activeBookmakers.filterMap fun bookmakerName =>
        match lookupPlayer oddsData bookmakerName marketId oid with
        | some player =>
            if player.active = true ∧ 1 < player.price
            then some ({ bookmaker := bookmakerName, odds := player.price } : OddsOption)
            else none
        | none => none :=
      mem_sortDescByOdds (List.mem_of_mem_take hopt)
    rw [List.mem_filterMap] at h2
    obtain ⟨bname, -, hf⟩ := h2
    cases hlp : lookupPlayer oddsData bname marketId oid with
    | none => simp [hlp] at hf
    | some player =>
        simp only [hlp] at hf
        by_cases hcond : player.active = true ∧ 1 < player.price
        · simp only [if_pos hcond, Option.some.injEq] at hf
          subst hf
          exact ⟨hcond.2, player, hlp, hcond.1, rfl⟩
        · simp [hcond] at hf
  · rw [List.forall_iff_forall_mem]
    simp only [findBestOdds]
    refine listFoldlInv
      (fun (acc : List (String × BestOdd)) => ∀ e ∈ acc, 0 < e.2.odds ∧
        ∃ player, lookupPlayer oddsData e.2.bookmaker marketId e.1 = some player ∧
          player.active = true ∧ player.price = e.2.odds)
      _ ?_ marketOutcomes [] (by simp)
    intro acc outcomeId hacc
    dsimp only
    by_cases hb : (activeBookmakers.foldl
        (fun (state : String × ℚ) bookmakerName =>
          match lookupPlayer oddsData bookmakerName marketId outcomeId with
          | some player =>
              if player.active = true ∧ state.2 < player.price
              then (bookmakerName, player.price) else state
          | none => state)
        ("", 0)).1 ≠ ""
    · rw [if_pos hb]
      intro e he
      rw [List.mem_append] at he
      rcases he with he | he
      · exact hacc e he
      · have hinner : (fun (state : String × ℚ) =>
            0 ≤ state.2 ∧ (state.1 ≠ "" → 0 < state.2 ∧
              ∃ player, lookupPlayer oddsData state.1 marketId outcomeId = some player ∧
                player.active = true ∧ player.price = state.2))
            (activeBookmakers.foldl
              (fun (state : String × ℚ) bookmakerName =>
                match lookupPlayer oddsData bookmakerName marketId outcomeId with
                | some player =>
                    if player.active = true ∧ state.2 < player.price
                    then (bookmakerName, player.price) else state
                | none => state)
              ("", 0)) := by
          refine listFoldlInv
            (fun (state : String × ℚ) =>
              0 ≤ state.2 ∧ (state.1 ≠ "" → 0 < state.2 ∧
                ∃ player, lookupPlayer oddsData state.1 marketId outcomeId = some player ∧
                  player.active = true ∧ player.price = state.2))
            _ ?_ activeBookmakers ("", 0) ⟨le_refl 0, by simp⟩
          intro state bname hstate
          cases hlp : lookupPlayer oddsData bname marketId outcomeId with
          | none => simpa [hlp] using hstate
          | some player =>
              simp only [hlp]
              by_cases hcond : player.active = true ∧ state.2 < player.price
              · rw [if_pos hcond]
                refine ⟨le_of_lt (lt_of_le_of_lt hstate.1 hcond.2), fun _ => ?_⟩
                exact ⟨lt_of_le_of_lt hstate.1 hcond.2, player, hlp, hcond.1, rfl⟩
              · rw [if_neg hcond]
                exact hstate
        rw [List.mem_singleton] at he
        subst he
        exact hinner.2 hb
    · rw [if_neg hb]
      exact hacc

/-!
Claim C6 — stake percentages summing to 100.
-/

theorem bets_sum_close (ps : List ℚ) (T : ℚ) (hT : 0 < T) :
    |((ps.map fun p => roundTo2 (p / T * 100)).sum) - 100| ≤
      (ps.length : ℚ) / 200 + |ps.sum - T| * 100 / T := by
  have hne : T ≠ 0 := ne_of_gt hT
  have hxs : (ps.map fun p => p / T * 100).sum = ps.sum / T * 100 := by
    induction ps with
    | nil => simp
    | cons x xs ih =>
        simp only [List.map_cons, List.sum_cons, ih]
        ring
  have h1 : |((ps.map fun p => roundTo2 (p / T * 100)).sum) -
      (ps.map fun p => p / T * 100).sum| ≤ (ps.length : ℚ) / 200 := by
    have h := sum_map_roundToDec_close 2 (ps.map fun p => p / T * 100)
    rw [List.map_map, List.length_map] at h
    calc |((ps.map fun p => roundTo2 (p / T * 100)).sum) -
        (ps.map fun p => p / T * 100).sum|
        ≤ (ps.length : ℚ) * (1 / (2 * 10 ^ 2)) := h
      _ = (ps.length : ℚ) / 200 := by rw [mul_one_div]; norm_num
  have habs : |ps.sum / T * 100 - 100| = |ps.sum - T| * 100 / T := by
    rw [show ps.sum / T * 100 - 100 = (ps.sum - T) * 100 / T from by field_simp; ring]
    rw [abs_div, abs_mul, abs_of_pos hT, abs_of_pos (show (0:ℚ) < 100 from by norm_num)]
  calc |(ps.map fun p => roundTo2 (p / T * 100)).sum - 100|
      = |(((ps.map fun p => roundTo2 (p / T * 100)).sum) -
            (ps.map fun p => p / T * 100).sum) +
          (((ps.map fun p => p / T * 100).sum) - 100)| := by rw [sub_add_sub_cancel]
    _ ≤ |((ps.map fun p => roundTo2 (p / T * 100)).sum) -
            (ps.map fun p => p / T * 100).sum| +
          |((ps.map fun p => p / T * 100).sum) - 100| := abs_add _ _
    _ ≤ (ps.length : ℚ) / 200 + |ps.sum - T| * 100 / T := by
        apply add_le_add h1
        rw [hxs, habs]

theorem enum_map_comp_snd {α β : Type _} (F : α → β) (l : List α) :
    l.enum.map (fun p => F p.2) = l.map F := by
  rw [show (fun (p : ℕ × α) => F p.2) = F ∘ Prod.snd from rfl, ← List.map_map,
    List.enum_map_snd]

theorem core_bets_bound (bestOdds : List (String × BestOdd))
    (hT : 0 < coreTotalImplied bestOdds) :
    |(((coreOutcomeResults bestOdds).map fun item =>
        roundTo2 (item.impliedProbability / coreTotalImplied bestOdds * 100)).sum) - 100| ≤
      (bestOdds.length : ℚ) / 200 + 1 / (200 * coreTotalImplied bestOdds) := by
  have hne : coreTotalImplied bestOdds ≠ 0 := ne_of_gt hT
  have h := bets_sum_close ((coreOutcomeResults bestOdds).map fun item =>
    item.impliedProbability) (coreTotalImplied bestOdds) hT
  rw [List.map_map, List.length_map] at h
  have hTr : coreTotalImplied bestOdds =
      roundTo4 (((coreOutcomeResults bestOdds).map fun item => item.impliedProbability).sum) := by
    rw [coreTotalImplied, foldl_add_eq_sum_map, zero_add]
  have hdiff : |(((coreOutcomeResults bestOdds).map fun item =>
      item.impliedProbability).sum) - coreTotalImplied bestOdds| ≤ 1 / 20000 := by
    rw [hTr, abs_sub_comm]
    calc |roundTo4 (((coreOutcomeResults bestOdds).map fun item => item.impliedProbability).sum) -
          ((coreOutcomeResults bestOdds).map fun item => item.impliedProbability).sum|
        ≤ 1 / (2 * 10 ^ 4) :=
          abs_roundToDec_sub_le 4 _
      _ = 1 / 20000 := by norm_num
  have hlen : (coreOutcomeResults bestOdds).length = bestOdds.length := by
    rw [coreOutcomeResults, List.length_map]
  rw [hlen] at h
  refine le_trans h (add_le_add_left ?_ _)
  calc |(((coreOutcomeResults bestOdds).map fun item => item.impliedProbability).sum) -
        coreTotalImplied bestOdds| * 100 / coreTotalImplied bestOdds
      ≤ (1 / 20000) * 100 / coreTotalImplied bestOdds := by
        apply (div_le_div_iff_of_pos_right hT).mpr
        exact mul_le_mul_of_nonneg_right hdiff (by norm_num)
    _ = 1 / (200 * coreTotalImplied bestOdds) := by
        field_simp
        ring

theorem topk_bets_bound (combo : List OddsOption) (hS : 0 < impliedSum combo) :
    |((combo.map fun o =>
        roundTo2 (roundTo4 (1 / o.odds) / impliedSum combo * 100)).sum) - 100| ≤
      (combo.length : ℚ) / 200 + (combo.length : ℚ) / (200 * impliedSum combo) := by
  have hne : impliedSum combo ≠ 0 := ne_of_gt hS
  have h := bets_sum_close (combo.map fun o => roundTo4 (1 / o.odds)) (impliedSum combo) hS
  rw [List.map_map, List.length_map] at h
  have hS_eq : impliedSum combo = (combo.map fun o => 1 / o.odds).sum := by
    rw [impliedSum, foldl_add_eq_sum_map, zero_add]
  have hdiff : |((combo.map fun o => roundTo4 (1 / o.odds)).sum) - impliedSum combo| ≤
      (combo.length : ℚ) / 20000 := by
    rw [hS_eq]
    have h4 := sum_map_roundToDec_close 4 (combo.map fun o => 1 / o.odds)
    rw [List.map_map, List.length_map] at h4
    calc |((combo.map fun o => roundTo4 (1 / o.odds)).sum) -
          (combo.map fun o => 1 / o.odds).sum|
        ≤ (combo.length : ℚ) * (1 / (2 * 10 ^ 4)) := h4
      _ = (combo.length : ℚ) / 20000 := by rw [mul_one_div]; norm_num
  refine le_trans h (add_le_add_left ?_ _)
  calc |((combo.map fun o => roundTo4 (1 / o.odds)).sum) - impliedSum combo| * 100 /
        impliedSum combo
      ≤ ((combo.length : ℚ) / 20000) * 100 / impliedSum combo := by
        apply (div_le_div_iff_of_pos_right hS).mpr
        exact mul_le_mul_of_nonneg_right hdiff (by norm_num)
    _ = (combo.length : ℚ) / (200 * impliedSum combo) := by
        field_simp
        ring

/-- C6, counterexample. In top-K mode with bet distribution enabled, a
combination of two quotes at odds 20000 (each exact implied probability
1/20000, which rounds up to 1/10000 at 4 decimals while the exact sum is
already 1/10000) yields stake percentages of 100 and 100: their sum is 200,
not 100 within 0.05. -/
theorem C6_counterexample :
    (evaluateCombinations "m" ["o1", "o2"] [[⟨"b1", 20000⟩, ⟨"b2", 20000⟩]] true).map
      (fun o => (o.betDistribution.map BetItem.betPercentage).sum) = [200] := by
  norm_num [evaluateCombinations, evaluateCombo, impliedSum, roundTo4, roundTo2, roundToDec,
    List.filterMap_cons, List.filterMap_nil, List.enum, List.enumFrom]

/-- C6, amended. The sum of the stake percentages tracks 100 only up to
rounding error that grows with the reciprocal of the total implied
probability: in single-best mode every emitted opportunity with positive
recorded total `T` over `n` outcomes satisfies `|sum - 100| ≤ n/200 +
1/(200*T)`; in top-K mode with bet distribution enabled, a combination with
positive exact implied sum `S` over `n` outcomes satisfies `|sum - 100| ≤
n/200 + n/(200*S)`. The fixed 0.05 tolerance claimed can fail for extreme
odds, and in top-K mode without `includeBetDistribution` the distribution is
empty. -/
theorem C6_amended :
    (∀ (marketId : String) (bestOdds : List (String × BestOdd)) (opp : ArbitrageOpportunity),
      calculateArbitrageForMarket marketId bestOdds = some opp →
      0 < opp.totalImpliedProbability →
      |((opp.betDistribution.map BetItem.betPercentage).sum) - 100| ≤
        (opp.betDistribution.length : ℚ) / 200 +
          1 / (200 * opp.totalImpliedProbability)) ∧
    (∀ (marketId : String) (outcomeIds : List String) (combo : List OddsOption)
      (opp : ArbitrageOpportunity),
      evaluateCombo marketId outcomeIds true combo = some opp →
      0 < impliedSum combo →
      |((opp.betDistribution.map BetItem.betPercentage).sum) - 100| ≤
        (combo.length : ℚ) / 200 + (combo.length : ℚ) / (200 * impliedSum combo)) := by
  constructor
  · intro marketId bestOdds opp he hpos
    simp only [calculateArbitrageForMarket] at he
    by_cases hge : coreTotalImplied bestOdds ≥ 1
    · simp [hge] at he
    · simp only [if_neg hge, Option.some.injEq] at he
      subst he
      simp only [List.map_map, List.length_map]
      have hT : 0 < coreTotalImplied bestOdds := hpos
      have h := core_bets_bound bestOdds hT
      rw [show (coreOutcomeResults bestOdds).length = bestOdds.length from by
        rw [coreOutcomeResults, List.length_map]]
      exact h
  · intro marketId outcomeIds combo opp he hpos
    simp only [evaluateCombo] at he
    by_cases hlt : impliedSum combo < 1
    · simp only [if_pos hlt, if_true, Option.some.injEq] at he
      subst he
      simp only [List.map_map, List.length_map, List.enum_length]
      have h := topk_bets_bound combo hpos
      rw [← enum_map_comp_snd
        (fun o => roundTo2 (roundTo4 (1 / o.odds) / impliedSum combo * 100)) combo] at h
      exact h
    · simp [hlt] at he

/-- C6, witness for the amended claim: at best odds (2, 5/2) both evaluators
emit `oppTwoFive` (total 9/10 > 0, stakes 55.56 and 44.44), and the two
bounds hold there. -/
theorem C6_amended_witness :
    (|((oppTwoFive.betDistribution.map BetItem.betPercentage).sum) - 100| ≤
      (oppTwoFive.betDistribution.length : ℚ) / 200 +
        1 / (200 * oppTwoFive.totalImpliedProbability)) ∧
    (|((oppTwoFive.betDistribution.map BetItem.betPercentage).sum) - 100| ≤
      (([⟨"b1", (2:ℚ)⟩, ⟨"b2", (5:ℚ)/2⟩] : List OddsOption).length : ℚ) / 200 +
        (([⟨"b1", (2:ℚ)⟩, ⟨"b2", (5:ℚ)/2⟩] : List OddsOption).length : ℚ) /
          (200 * impliedSum [⟨"b1", (2:ℚ)⟩, ⟨"b2", (5:ℚ)/2⟩])) :=
  ⟨C6_amended.1 "m" [("o1", ⟨"b1", 2⟩), ("o2", ⟨"b2", 5/2⟩)] oppTwoFive
    (by norm_num [calculateArbitrageForMarket, coreOutcomeResults, coreTotalImplied,
      roundTo4, roundTo2, roundToDec, oppTwoFive])
    (by norm_num [oppTwoFive]),
   C6_amended.2 "m" ["o1", "o2"] [⟨"b1", 2⟩, ⟨"b2", 5/2⟩] oppTwoFive
    (by norm_num [evaluateCombo, impliedSum, roundTo4, roundTo2, roundToDec, oppTwoFive,
      List.enum, List.enumFrom])
    (by norm_num [impliedSum])⟩
